import Mathlib

/-!
Verification of the recurring-event expansion core of the Fluxo backend
(`events-calendar` module).

The expansion loop `generateRecurringEvents(baseEvent, rangeStart, rangeEnd)`
is embedded from the TypeScript shown in
`src/events-calendar/README.md` (section "Instance Generation").

Timestamps are modelled as `Nat` milliseconds since the Unix epoch, exactly
the numeric value JS `Date` comparisons use (`<=` on `Date` compares
`getTime()`).  Fresh Mongo `ObjectId` generation (`new
mongoose.Types.ObjectId()`) is modelled by a monotone counter threaded as an
explicit seed: ids of persisted documents and freshly generated ids live in
distinct constructors of `EventId`, reflecting ObjectId global uniqueness.
-/

/-- Milliseconds in one UTC day, as used by JS `Date` day arithmetic. -/
def dayMs : Nat := 86400000

/-- Gregorian leap-year test (years are ≥ 1970 here). -/
def isLeapYear (y : Nat) : Bool :=
  (y % 4 == 0 && y % 100 != 0) || (y % 400 == 0)

/-- Number of days of month `m` (0 = January … 11 = December) of year `y`. -/
def monthDays (y m : Nat) : Nat :=
  if m = 1 then (if isLeapYear y then 29 else 28)
  else if m = 3 ∨ m = 5 ∨ m = 8 ∨ m = 10 then 30
  else 31

/-- Number of days of linear month `M`, months counted from January 1970. -/
def monthLen (M : Nat) : Nat := monthDays (1970 + M / 12) (M % 12)

/-- Days elapsed from 1970-01-01 to the first day of linear month `M`. -/
def daysBeforeMonth : Nat → Nat
  | 0 => 0
  | M + 1 => daysBeforeMonth M + monthLen M

/-- Largest `M ≤ B` with `daysBeforeMonth M ≤ d`. -/
def monthOfDayAux (d : Nat) : Nat → Nat
  | 0 => 0
  | B + 1 => if daysBeforeMonth (B + 1) ≤ d then B + 1 else monthOfDayAux d B

/-- Linear month containing day `d` (days counted from 1970-01-01). -/
def monthOfDay (d : Nat) : Nat := monthOfDayAux d (d / 28 + 1)

/-- Day `d` shifted forward by `k` calendar months, keeping the day-of-month
and clamping to the last day of the target month when it is shorter
(clamp policy: last day of month). -/
def addMonthsDays (d k : Nat) : Nat :=
  let M := monthOfDay d
  let dom := d - daysBeforeMonth M
  daysBeforeMonth (M + k) + min dom (monthLen (M + k) - 1)

/-- Timestamp `t` (ms) shifted forward by `k` calendar months, preserving the
time of day. -/
def addMonthsMs (t k : Nat) : Nat :=
  addMonthsDays (t / dayMs) k * dayMs + t % dayMs

/-- JS `Date.prototype.getUTCDay`: weekday of a timestamp, 0 = Sunday …
6 = Saturday (the Unix epoch fell on a Thursday). -/
def getUTCDay (t : Nat) : Nat := (t / dayMs + 4) % 7

theorem monthLen_ge (M : Nat) : 28 ≤ monthLen M := by
  unfold monthLen monthDays
  split
  · split <;> omega
  · split <;> omega

theorem monthLen_pos (M : Nat) : 1 ≤ monthLen M :=
  le_trans (by omega) (monthLen_ge M)

theorem daysBeforeMonth_lt_succ (M : Nat) :
    daysBeforeMonth M < daysBeforeMonth (M + 1) := by
  have h := monthLen_pos M
  simp only [daysBeforeMonth]
  omega

theorem daysBeforeMonth_strictMono : StrictMono daysBeforeMonth :=
  strictMono_nat_of_lt_succ daysBeforeMonth_lt_succ

theorem daysBeforeMonth_ge (M : Nat) : 28 * M ≤ daysBeforeMonth M := by
  induction M with
  | zero => simp [daysBeforeMonth]
  | succ n ih =>
    have h := monthLen_ge n
    simp only [daysBeforeMonth]
    omega

theorem monthOfDayAux_le (d : Nat) : ∀ B, daysBeforeMonth (monthOfDayAux d B) ≤ d := by
  intro B
  induction B with
  | zero => simp [monthOfDayAux, daysBeforeMonth]
  | succ n ih =>
    simp only [monthOfDayAux]
    split
    · assumption
    · exact ih

theorem monthOfDayAux_lt (d : Nat) :
    ∀ B, d < daysBeforeMonth (B + 1) → d < daysBeforeMonth (monthOfDayAux d B + 1) := by
  intro B
  induction B with
  | zero => intro h; simpa [monthOfDayAux] using h
  | succ n ih =>
    intro h
    simp only [monthOfDayAux]
    split
    · exact h
    · exact ih (by omega)

theorem monthOfDay_le (d : Nat) : daysBeforeMonth (monthOfDay d) ≤ d :=
  monthOfDayAux_le d _

theorem monthOfDay_lt (d : Nat) : d < daysBeforeMonth (monthOfDay d + 1) := by
  apply monthOfDayAux_lt
  have h := daysBeforeMonth_ge (d / 28 + 1 + 1)
  omega

theorem addMonthsDays_lt (d : Nat) {k : Nat} (hk : 1 ≤ k) : d < addMonthsDays d k := by
  show d < daysBeforeMonth (monthOfDay d + k) +
    min (d - daysBeforeMonth (monthOfDay d)) (monthLen (monthOfDay d + k) - 1)
  have h1 := monthOfDay_lt d
  have h2 : daysBeforeMonth (monthOfDay d + 1) ≤ daysBeforeMonth (monthOfDay d + k) :=
    daysBeforeMonth_strictMono.monotone (by omega)
  omega

theorem addMonthsMs_lt (t : Nat) {k : Nat} (hk : 1 ≤ k) : t < addMonthsMs t k := by
  have h1 := addMonthsDays_lt (t / dayMs) hk
  unfold addMonthsMs dayMs at *
  omega

/-! ## Data model

From the README interfaces (`RecurrencePattern`) and the spec's data model:
`BaseEvent` fields are copied verbatim into every generated occurrence via the
JS object spread, apart from `_id`, `startDate`, `isRecurringInstance` and
`parentEventId`.  A document id is either the id of a persisted document or a
freshly generated `ObjectId`; ObjectIds never collide, which the model
reflects by keeping the two kinds in distinct constructors. -/

inductive RecurrenceFrequency
  | daily
  | weekly
  | monthly
deriving DecidableEq

structure RecurrencePattern where
  frequency : RecurrenceFrequency
  interval : Int
  daysOfWeek : Option (List Nat)
  endDate : Option Nat
  maxOccurrences : Option Nat
deriving DecidableEq

inductive EventId
  | persisted (n : Nat)
  | fresh (n : Nat)
deriving DecidableEq

structure CalendarEvent where
  mongoId : EventId
  userId : Nat
  title : String
  description : String
  location : String
  category : String
  color : String
  startDate : Nat
  duration : Nat
  recurrence : Option RecurrencePattern
  isRecurringInstance : Bool
  parentEventId : Option EventId
deriving DecidableEq

/-- Modelled from the spec: the service method `shouldCreateOccurrence
(currentDate, recurrence)` is referenced by the README's generation loop but
its body is not in the sources.  Per the spec (§4.1 step 3a): `daily` — every
cursor position is a candidate; `weekly` — candidate when the cursor's weekday
is listed in `daysOfWeek` (when `daysOfWeek` is absent or empty the cursor
stays on `startDate`'s weekday, see `getNextOccurrenceDate`, so every cursor
position is a candidate); `monthly` — the stepping preserves the anchor
day-of-month, so every cursor position is a candidate. -/
def shouldCreateOccurrence (currentDate : Nat) (r : RecurrencePattern) : Bool :=
  match r.frequency with
  | .daily => true
  | .weekly =>
    match r.daysOfWeek with
    | none => true
    | some [] => true
    | some ds => ds.contains (getUTCDay currentDate)
  | .monthly => true

/-- Modelled from the spec: the service method `getNextOccurrenceDate
(currentDate, recurrence)` is referenced by the README's generation loop but
its body is not in the sources.  Per the spec (§4.1 step 3c and §7):
a non-positive `interval` defaults to 1; `daily` steps `interval` days;
`weekly` with listed `daysOfWeek` steps one day at a time, re-evaluated
against `daysOfWeek` (the week-level `interval` cannot be applied with this
signature, which carries no anchor date); `weekly` without `daysOfWeek` steps
whole weeks, staying on the seed weekday; `monthly` steps `interval` calendar
months keeping the day-of-month, clamped to the last day of shorter months. -/
def getNextOccurrenceDate (currentDate : Nat) (r : RecurrencePattern) : Nat :=
  let k : Nat := if r.interval ≤ 0 then 1 else r.interval.toNat
  match r.frequency with
  | .daily => currentDate + k * dayMs
  | .weekly =>
    match r.daysOfWeek with
    | none => currentDate + 7 * k * dayMs
    | some [] => currentDate + 7 * k * dayMs
    | some _ => currentDate + dayMs
  | .monthly => addMonthsMs currentDate k

/-- The occurrence object built in the loop body:
`{ ...baseEvent.toObject(), _id: new mongoose.Types.ObjectId(), startDate:
new Date(currentDate), isRecurringInstance: true, parentEventId:
baseEvent._id }`.  The fresh ObjectId is the `nextId`-th id drawn from the
generator. -/
def makeOccurrence (baseEvent : CalendarEvent) (currentDate : Nat) (nextId : Nat) :
    CalendarEvent :=
  { baseEvent with
      mongoId := EventId.fresh nextId
      startDate := currentDate
      isRecurringInstance := true
      parentEventId := some baseEvent.mongoId }

/-- The `while` loop of `generateRecurringEvents` (README, "Instance
Generation"), with its state (`currentDate`, `occurrenceCount`, the ObjectId
generator position, the `events` accumulator in reverse order) passed
explicitly.  `fuel` bounds the number of iterations; `none` means the fuel ran
out before the loop's own stop conditions fired. -/
def generateRecurringEventsAux (baseEvent : CalendarEvent) (r : RecurrencePattern)
    (rangeStart rangeEnd maxDate maxOccurrences : Nat) :
    Nat → Nat → Nat → Nat → List CalendarEvent → Option (List CalendarEvent)
  | 0, _, _, _, _ => none
  | fuel + 1, currentDate, occurrenceCount, nextId, events =>
    if currentDate ≤ maxDate ∧ currentDate ≤ rangeEnd ∧ occurrenceCount < maxOccurrences then
      if rangeStart ≤ currentDate ∧ shouldCreateOccurrence currentDate r = true then
        generateRecurringEventsAux baseEvent r rangeStart rangeEnd maxDate maxOccurrences
          fuel (getNextOccurrenceDate currentDate r) (occurrenceCount + 1) (nextId + 1)
          (makeOccurrence baseEvent currentDate nextId :: events)
      else
        generateRecurringEventsAux baseEvent r rangeStart rangeEnd maxDate maxOccurrences
          fuel (getNextOccurrenceDate currentDate r) occurrenceCount nextId events
    else
      some events.reverse

/-- `const maxOccurrences = recurrence.maxOccurrences || 100;` — JS `||`
replaces both an absent and a zero `maxOccurrences` with 100. -/
def effectiveMaxOccurrences (r : RecurrencePattern) : Nat :=
  match r.maxOccurrences with
  | none => 100
  | some 0 => 100
  | some (n + 1) => n + 1

/-- `generateRecurringEvents(baseEvent, rangeStart, rangeEnd)` with the fuel
made visible: `some events` when the loop's own stop conditions fired within
the allotted fuel.  `const maxDate = recurrence.endDate || rangeEnd;` (a
stored end date is a `Date` object and hence truthy).  The loop strictly
advances `currentDate` and stops once it passes `rangeEnd`, so
`rangeEnd - startDate + 2` iterations always suffice. -/
def generateRecurringEventsChecked (baseEvent : CalendarEvent)
    (rangeStart rangeEnd idSeed : Nat) : Option (List CalendarEvent) :=
  match baseEvent.recurrence with
  | none => some []
  | some r =>
    generateRecurringEventsAux baseEvent r rangeStart rangeEnd
      (r.endDate.getD rangeEnd) (effectiveMaxOccurrences r)
      (rangeEnd - baseEvent.startDate + 2) baseEvent.startDate 0 idSeed []

/-- `generateRecurringEvents(baseEvent, rangeStart, rangeEnd)`: the list of
generated occurrence records, in generation order.  `idSeed` is the position
of the global ObjectId generator when the call starts. -/
def generateRecurringEvents (baseEvent : CalendarEvent)
    (rangeStart rangeEnd idSeed : Nat) : List CalendarEvent :=
  (generateRecurringEventsChecked baseEvent rangeStart rangeEnd idSeed).getD []

/-- One call together with the ObjectId generator position it leaves behind:
the loop draws exactly one fresh id per emitted occurrence. -/
def generateRecurringEventsSt (baseEvent : CalendarEvent)
    (rangeStart rangeEnd idSeed : Nat) : List CalendarEvent × Nat :=
  let events := generateRecurringEvents baseEvent rangeStart rangeEnd idSeed
  (events, idSeed + events.length)

/-! ## Core lemmas: forward progress and sufficiency of the fuel -/

theorem lt_getNextOccurrenceDate (currentDate : Nat) (r : RecurrencePattern) :
    currentDate < getNextOccurrenceDate currentDate r := by
  obtain ⟨f, i, dw, ed, mo⟩ := r
  cases f with
  | daily =>
    simp only [getNextOccurrenceDate, dayMs]
    split <;> omega
  | weekly =>
    cases dw with
    | none =>
      simp only [getNextOccurrenceDate, dayMs]
      split <;> omega
    | some ds =>
      cases ds with
      | nil =>
        simp only [getNextOccurrenceDate, dayMs]
        split <;> omega
      | cons a as =>
        simp only [getNextOccurrenceDate, dayMs]
        omega
  | monthly =>
    simp only [getNextOccurrenceDate]
    exact addMonthsMs_lt _ (by split <;> omega)

theorem generateRecurringEventsAux_isSome (b : CalendarEvent) (r : RecurrencePattern)
    (rangeStart rangeEnd maxDate maxOcc : Nat) :
    ∀ (fuel currentDate occurrenceCount nextId : Nat) (events : List CalendarEvent),
      rangeEnd + 1 - currentDate < fuel →
      (generateRecurringEventsAux b r rangeStart rangeEnd maxDate maxOcc
        fuel currentDate occurrenceCount nextId events).isSome = true := by
  intro fuel
  induction fuel with
  | zero => intro c cnt i acc h; omega
  | succ n ih =>
    intro c cnt i acc h
    simp only [generateRecurringEventsAux]
    split
    · rename_i hg
      have hstep := lt_getNextOccurrenceDate c r
      split
      · exact ih _ _ _ _ (by omega)
      · exact ih _ _ _ _ (by omega)
    · simp

theorem generateRecurringEventsChecked_eq_some (b : CalendarEvent)
    (rangeStart rangeEnd idSeed : Nat) :
    generateRecurringEventsChecked b rangeStart rangeEnd idSeed =
      some (generateRecurringEvents b rangeStart rangeEnd idSeed) := by
  cases hrec : b.recurrence with
  | none => simp [generateRecurringEvents, generateRecurringEventsChecked, hrec]
  | some r =>
    have h := generateRecurringEventsAux_isSome b r rangeStart rangeEnd
      (r.endDate.getD rangeEnd) (effectiveMaxOccurrences r)
      (rangeEnd - b.startDate + 2) b.startDate 0 idSeed [] (by omega)
    obtain ⟨l, hl⟩ := Option.isSome_iff_exists.mp h
    simp [generateRecurringEvents, generateRecurringEventsChecked, hrec, hl]

/-- C4: `generateRecurringEvents` terminates on every input.  In the fueled
embedding, termination is the fact that `rangeEnd - startDate + 2` iterations
always make the loop reach one of its own stop conditions
(`generateRecurringEventsChecked` returns `some`, never the fuel-exhaustion
marker `none`), which holds because the cursor strictly advances every
iteration (`getNextOccurrenceDate` treats a non-positive or absent interval
as 1) and the loop stops once the cursor passes `rangeEnd` — even when
neither `endDate` nor `maxOccurrences` is set. -/
theorem c4_expansion_terminates :
    (∀ (b : CalendarEvent) (rangeStart rangeEnd idSeed : Nat),
      generateRecurringEventsChecked b rangeStart rangeEnd idSeed =
        some (generateRecurringEvents b rangeStart rangeEnd idSeed)) ∧
    (∀ (currentDate : Nat) (r : RecurrencePattern),
      currentDate < getNextOccurrenceDate currentDate r) :=
  ⟨generateRecurringEventsChecked_eq_some, lt_getNextOccurrenceDate⟩

/-! ## Occurrence counting -/

theorem generateRecurringEventsAux_length (b : CalendarEvent) (r : RecurrencePattern)
    (rangeStart rangeEnd maxDate maxOcc : Nat) :
    ∀ (fuel currentDate occurrenceCount nextId : Nat) (events l : List CalendarEvent),
      generateRecurringEventsAux b r rangeStart rangeEnd maxDate maxOcc
        fuel currentDate occurrenceCount nextId events = some l →
      l.length ≤ events.length + (maxOcc - occurrenceCount) := by
  intro fuel
  induction fuel with
  | zero => intro c cnt i acc l h; simp [generateRecurringEventsAux] at h
  | succ n ih =>
    intro c cnt i acc l h
    simp only [generateRecurringEventsAux] at h
    split at h
    · rename_i hg
      split at h
      · have hlen := ih _ _ _ _ _ h
        simp only [List.length_cons] at hlen
        omega
      · exact ih _ _ _ _ _ h
    · injection h with h2
      subst h2
      simp

theorem generateRecurringEvents_length_le (b : CalendarEvent) (r : RecurrencePattern)
    (rangeStart rangeEnd idSeed : Nat) (hrec : b.recurrence = some r) :
    (generateRecurringEvents b rangeStart rangeEnd idSeed).length ≤
      effectiveMaxOccurrences r := by
  have hsome := generateRecurringEventsChecked_eq_some b rangeStart rangeEnd idSeed
  unfold generateRecurringEventsChecked at hsome
  rw [hrec] at hsome
  have hlen := generateRecurringEventsAux_length b r rangeStart rangeEnd
    (r.endDate.getD rangeEnd) (effectiveMaxOccurrences r)
    (rangeEnd - b.startDate + 2) b.startDate 0 idSeed [] _ hsome
  simpa using hlen

/-- A persisted base event with representative attribute values; the
attributes are opaque to the expansion loop. -/
def mkBase (start : Nat) (r : Option RecurrencePattern) : CalendarEvent :=
  { mongoId := EventId.persisted 1
    userId := 7
    title := "Team Meeting"
    description := "Weekly team sync"
    location := "HQ"
    category := "Meeting"
    color := "blue"
    startDate := start
    duration := 60
    recurrence := r
    isRecurringInstance := false
    parentEventId := none }

/-- Daily rule, interval 1, capped at a single occurrence over its lifetime. -/
def c1Rule : RecurrencePattern :=
  { frequency := .daily, interval := 1, daysOfWeek := none,
    endDate := none, maxOccurrences := some 1 }

/-- Base event seeded at the epoch with `c1Rule`. -/
def c1Event : CalendarEvent := mkBase 0 (some c1Rule)

/-- C1 is false of the code: the loop increments `occurrenceCount` only
inside the `currentDate >= rangeStart` branch, so candidates falling before
`rangeStart` are NOT counted against `maxOccurrences`.  Concretely, for a
daily rule with `maxOccurrences = 1` seeded at time 0 and queried over the
window `[2 days, 2 days]`, the candidates at day 0 and day 1 lie on the
rule's timeline before the window, so under the claim the cap would already
be exhausted and the call would emit at most `1 - 2 = 0` occurrences; the
code emits 1. -/
theorem c1_counterexample :
    c1Event.recurrence = some c1Rule ∧
    c1Rule.maxOccurrences = some 1 ∧
    c1Event.startDate = 0 ∧
    shouldCreateOccurrence 0 c1Rule = true ∧
    shouldCreateOccurrence 86400000 c1Rule = true ∧
    (generateRecurringEvents c1Event 172800000 172800000 0).length = 1 ∧
    ¬ (generateRecurringEvents c1Event 172800000 172800000 0).length ≤ 1 - 2 := by
  refine ⟨rfl, rfl, rfl, rfl, rfl, ?_, ?_⟩ <;> decide

/-- C1 (amended): within a single call, a rule with `maxOccurrences = N ≥ 1`
never emits more than `N` occurrences; but candidates before `rangeStart` are
not counted against the cap — the counter counts emitted occurrences only —
so a window over a later portion of the timeline can still yield up to `N`
occurrences rather than `N` minus the number of earlier candidates. -/
theorem c1_maxOccurrences_amended (b : CalendarEvent) (r : RecurrencePattern)
    (n rangeStart rangeEnd idSeed : Nat) (hrec : b.recurrence = some r)
    (hmax : r.maxOccurrences = some n) (hn : 0 < n) :
    (generateRecurringEvents b rangeStart rangeEnd idSeed).length ≤ n := by
  have heff : effectiveMaxOccurrences r = n := by
    unfold effectiveMaxOccurrences
    rw [hmax]
    cases n with
    | zero => omega
    | succ m => rfl
  have h := generateRecurringEvents_length_le b r rangeStart rangeEnd idSeed hrec
  omega

theorem c1_maxOccurrences_amended_witness :
    c1Event.recurrence = some c1Rule ∧ c1Rule.maxOccurrences = some 1 ∧ 0 < 1 ∧
    (generateRecurringEvents c1Event 0 864000000 0).length ≤ 1 :=
  ⟨rfl, rfl, by decide,
    c1_maxOccurrences_amended c1Event c1Rule 1 0 864000000 0 rfl rfl (by decide)⟩

/-- Daily rule with no occurrence cap at all. -/
def c10Rule : RecurrencePattern :=
  { frequency := .daily, interval := 1, daysOfWeek := none,
    endDate := none, maxOccurrences := none }

/-- Base event seeded at the epoch with `c10Rule`. -/
def c10Event : CalendarEvent := mkBase 0 (some c10Rule)

/-- C10: when `maxOccurrences` is absent — or present but zero, since the
JS fallback `recurrence.maxOccurrences || 100` also replaces 0 — a single
call never emits more than the constant 100 occurrences. -/
theorem c10_default_cap_100 (b : CalendarEvent) (r : RecurrencePattern)
    (rangeStart rangeEnd idSeed : Nat) (hrec : b.recurrence = some r)
    (hmax : r.maxOccurrences = none ∨ r.maxOccurrences = some 0) :
    (generateRecurringEvents b rangeStart rangeEnd idSeed).length ≤ 100 := by
  have heff : effectiveMaxOccurrences r = 100 := by
    unfold effectiveMaxOccurrences
    rcases hmax with h | h <;> rw [h]
  have h := generateRecurringEvents_length_le b r rangeStart rangeEnd idSeed hrec
  omega

theorem c10_default_cap_100_witness :
    c10Event.recurrence = some c10Rule ∧ c10Rule.maxOccurrences = none ∧
    (generateRecurringEvents c10Event 0 432000000 0).length ≤ 100 :=
  ⟨rfl, rfl,
    c10_default_cap_100 c10Event c10Rule 0 432000000 0 rfl (Or.inl rfl)⟩

/-! ## Bounds on emitted occurrence start dates -/

theorem generateRecurringEventsAux_mem_bounds (b : CalendarEvent) (r : RecurrencePattern)
    (rangeStart rangeEnd maxDate maxOcc : Nat) :
    ∀ (fuel currentDate occurrenceCount nextId : Nat) (events l : List CalendarEvent),
      generateRecurringEventsAux b r rangeStart rangeEnd maxDate maxOcc
        fuel currentDate occurrenceCount nextId events = some l →
      b.startDate ≤ currentDate →
      (∀ o ∈ events, rangeStart ≤ o.startDate ∧ o.startDate ≤ rangeEnd ∧
        o.startDate ≤ maxDate ∧ b.startDate ≤ o.startDate) →
      ∀ o ∈ l, rangeStart ≤ o.startDate ∧ o.startDate ≤ rangeEnd ∧
        o.startDate ≤ maxDate ∧ b.startDate ≤ o.startDate := by
  intro fuel
  induction fuel with
  | zero => intro c cnt i acc l h; simp [generateRecurringEventsAux] at h
  | succ n ih =>
    intro c cnt i acc l h hc hacc
    simp only [generateRecurringEventsAux] at h
    split at h
    · rename_i hg
      obtain ⟨hmd, he, _⟩ := hg
      have hstep := lt_getNextOccurrenceDate c r
      split at h
      · rename_i hcand
        refine ih _ _ _ _ _ h (by omega) ?_
        intro o ho
        rcases List.mem_cons.mp ho with rfl | ho
        · refine ⟨?_, ?_, ?_, ?_⟩ <;> simp [makeOccurrence] <;> omega
        · exact hacc o ho
      · exact ih _ _ _ _ _ h (by omega) hacc
    · injection h with h2
      subst h2
      intro o ho
      exact hacc o (List.mem_reverse.mp ho)

/-- C2: every emitted occurrence starts inside `[rangeStart, rangeEnd]`, is
no earlier than the base event's own start, and is no later than the rule's
`endDate` when one is set (`const maxDate = recurrence.endDate || rangeEnd`
together with the loop guards `currentDate <= maxDate && currentDate <=
rangeEnd`, emission guard `currentDate >= rangeStart`, and the strictly
forward-stepping cursor seeded at `baseEvent.startDate`). -/
theorem c2_window_bounds (b : CalendarEvent) (r : RecurrencePattern)
    (rangeStart rangeEnd idSeed : Nat) (hrec : b.recurrence = some r) :
    ∀ o ∈ generateRecurringEvents b rangeStart rangeEnd idSeed,
      rangeStart ≤ o.startDate ∧ o.startDate ≤ rangeEnd ∧
      b.startDate ≤ o.startDate ∧
      ∀ ed, r.endDate = some ed → o.startDate ≤ ed := by
  have hsome := generateRecurringEventsChecked_eq_some b rangeStart rangeEnd idSeed
  unfold generateRecurringEventsChecked at hsome
  rw [hrec] at hsome
  have hmem := generateRecurringEventsAux_mem_bounds b r rangeStart rangeEnd
    (r.endDate.getD rangeEnd) (effectiveMaxOccurrences r)
    (rangeEnd - b.startDate + 2) b.startDate 0 idSeed [] _ hsome (le_refl _)
    (by intro o ho; simp at ho)
  intro o ho
  obtain ⟨h1, h2, h3, h4⟩ := hmem o ho
  refine ⟨h1, h2, h4, ?_⟩
  intro ed hed
  rw [hed] at h3
  simpa using h3

/-- Daily rule with an explicit end date two days after the epoch and a
generous cap. -/
def c2Rule : RecurrencePattern :=
  { frequency := .daily, interval := 1, daysOfWeek := none,
    endDate := some 172800000, maxOccurrences := some 10 }

/-- Base event seeded at the epoch with `c2Rule`. -/
def c2Event : CalendarEvent := mkBase 0 (some c2Rule)

theorem c2_window_bounds_witness :
    c2Event.recurrence = some c2Rule ∧
    ∀ o ∈ generateRecurringEvents c2Event 0 864000000 0,
      (0 : Nat) ≤ o.startDate ∧ o.startDate ≤ 864000000 ∧
      c2Event.startDate ≤ o.startDate ∧
      ∀ ed, c2Rule.endDate = some ed → o.startDate ≤ ed :=
  ⟨rfl, c2_window_bounds c2Event c2Rule 0 864000000 0 rfl⟩

/-! ## Field copying and identifier freshness -/

/-- `o` carries the base event's attributes verbatim (the JS spread of
`baseEvent.toObject()`), is tagged as a recurring instance, and points back
at the base event. -/
def CopiesBase (b o : CalendarEvent) : Prop :=
  o.title = b.title ∧ o.description = b.description ∧ o.location = b.location ∧
  o.category = b.category ∧ o.color = b.color ∧ o.duration = b.duration ∧
  o.userId = b.userId ∧ o.recurrence = b.recurrence ∧
  o.isRecurringInstance = true ∧ o.parentEventId = some b.mongoId

instance (b o : CalendarEvent) : Decidable (CopiesBase b o) := by
  unfold CopiesBase
  infer_instance

theorem generateRecurringEventsAux_ids (b : CalendarEvent) (r : RecurrencePattern)
    (rangeStart rangeEnd maxDate maxOcc : Nat) :
    ∀ (fuel currentDate occurrenceCount nextId : Nat) (events l : List CalendarEvent),
      generateRecurringEventsAux b r rangeStart rangeEnd maxDate maxOcc
        fuel currentDate occurrenceCount nextId events = some l →
      (∀ o ∈ events, CopiesBase b o ∧ ∃ j, j < nextId ∧ o.mongoId = EventId.fresh j) →
      events.Pairwise (fun o o2 => o.mongoId ≠ o2.mongoId) →
      (∀ o ∈ l, CopiesBase b o ∧ ∃ j, o.mongoId = EventId.fresh j) ∧
      l.Pairwise (fun o o2 => o.mongoId ≠ o2.mongoId) := by
  intro fuel
  induction fuel with
  | zero => intro c cnt i acc l h; simp [generateRecurringEventsAux] at h
  | succ n ih =>
    intro c cnt i acc l h hacc hpw
    simp only [generateRecurringEventsAux] at h
    split at h
    · split at h
      · refine ih _ _ _ _ _ h ?_ ?_
        · intro o ho
          rcases List.mem_cons.mp ho with rfl | ho
          · exact ⟨by simp [CopiesBase, makeOccurrence], i, by omega, by simp [makeOccurrence]⟩
          · obtain ⟨hcb, j, hj, hid⟩ := hacc o ho
            exact ⟨hcb, j, by omega, hid⟩
        · refine List.pairwise_cons.mpr ⟨?_, hpw⟩
          intro o ho
          obtain ⟨_, j, hj, hid⟩ := hacc o ho
          simp only [makeOccurrence, hid]
          intro hcontra
          have : i = j := by injection hcontra
          omega
      · exact ih _ _ _ _ _ h hacc hpw
    · injection h with h2
      subst h2
      constructor
      · intro o ho
        obtain ⟨hcb, j, _, hid⟩ := hacc o (List.mem_reverse.mp ho)
        exact ⟨hcb, j, hid⟩
      · refine List.pairwise_reverse.mpr ?_
        exact hpw.imp (fun h => h.symm)

/-- C3: every occurrence copies the base event's attributes verbatim, is
flagged `isRecurringInstance := true`, and has `parentEventId` equal to the
base event's id; its id is a freshly drawn ObjectId, hence distinct from the
persisted base event's id and from every other occurrence's id in the
returned list. -/
theorem c3_occurrence_fields (b : CalendarEvent) (r : RecurrencePattern)
    (m rangeStart rangeEnd idSeed : Nat) (hrec : b.recurrence = some r)
    (hid : b.mongoId = EventId.persisted m) :
    (∀ o ∈ generateRecurringEvents b rangeStart rangeEnd idSeed,
      CopiesBase b o ∧ o.mongoId ≠ b.mongoId) ∧
    (generateRecurringEvents b rangeStart rangeEnd idSeed).Pairwise
      (fun o o2 => o.mongoId ≠ o2.mongoId) := by
  have hsome := generateRecurringEventsChecked_eq_some b rangeStart rangeEnd idSeed
  unfold generateRecurringEventsChecked at hsome
  rw [hrec] at hsome
  have hids := generateRecurringEventsAux_ids b r rangeStart rangeEnd
    (r.endDate.getD rangeEnd) (effectiveMaxOccurrences r)
    (rangeEnd - b.startDate + 2) b.startDate 0 idSeed [] _ hsome
    (by intro o ho; simp at ho) (by simp)
  obtain ⟨hmem, hpw⟩ := hids
  refine ⟨?_, hpw⟩
  intro o ho
  obtain ⟨hcb, j, hj⟩ := hmem o ho
  refine ⟨hcb, ?_⟩
  rw [hj, hid]
  intro hcontra
  cases hcontra

theorem c3_occurrence_fields_witness :
    c2Event.recurrence = some c2Rule ∧ c2Event.mongoId = EventId.persisted 1 ∧
    ((∀ o ∈ generateRecurringEvents c2Event 0 864000000 5,
      CopiesBase c2Event o ∧ o.mongoId ≠ c2Event.mongoId) ∧
    (generateRecurringEvents c2Event 0 864000000 5).Pairwise
      (fun o o2 => o.mongoId ≠ o2.mongoId)) :=
  ⟨rfl, rfl, c3_occurrence_fields c2Event c2Rule 1 0 864000000 5 rfl rfl⟩

/-! ## Determinism across calls -/

/-- Forget the (freshly generated) document id of an occurrence. -/
def eraseId (o : CalendarEvent) : CalendarEvent :=
  { o with mongoId := EventId.persisted 0 }

theorem generateRecurringEventsAux_eraseId (b : CalendarEvent) (r : RecurrencePattern)
    (rangeStart rangeEnd maxDate maxOcc : Nat) :
    ∀ (fuel currentDate occurrenceCount nextId nextId2 : Nat)
      (events events2 l l2 : List CalendarEvent),
      generateRecurringEventsAux b r rangeStart rangeEnd maxDate maxOcc
        fuel currentDate occurrenceCount nextId events = some l →
      generateRecurringEventsAux b r rangeStart rangeEnd maxDate maxOcc
        fuel currentDate occurrenceCount nextId2 events2 = some l2 →
      events.map eraseId = events2.map eraseId →
      l.map eraseId = l2.map eraseId := by
  intro fuel
  induction fuel with
  | zero => intro c cnt i i2 a a2 l l2 h; simp [generateRecurringEventsAux] at h
  | succ n ih =>
    intro c cnt i i2 a a2 l l2 h h2 hacc
    simp only [generateRecurringEventsAux] at h h2
    split at h
    · split at h
      · rw [if_pos (by assumption), if_pos (by assumption)] at h2
        refine ih _ _ _ _ _ _ _ _ h h2 ?_
        simp only [List.map_cons, hacc, List.cons.injEq]
        exact ⟨by simp [eraseId, makeOccurrence], trivial⟩
      · rw [if_pos (by assumption), if_neg (by assumption)] at h2
        exact ih _ _ _ _ _ _ _ _ h h2 hacc
    · rw [if_neg (by assumption)] at h2
      injection h with hl
      injection h2 with hl2
      subst hl
      subst hl2
      simp only [List.map_reverse, hacc]

/-- Daily rule with no stop conditions. -/
def c5Rule : RecurrencePattern :=
  { frequency := .daily, interval := 1, daysOfWeek := none,
    endDate := none, maxOccurrences := none }

/-- Base event seeded at the epoch with `c5Rule`. -/
def c5Event : CalendarEvent := mkBase 0 (some c5Rule)

/-- C5 is false of the code: each emitted occurrence gets `_id: new
mongoose.Types.ObjectId()`, a fresh id drawn from the global generator, so a
second call with identical arguments (here the window `[0, 0]`, which emits
exactly one occurrence) returns a sequence whose `_id` field differs from the
first call's — the outputs are not identical.  `generateRecurringEventsSt`
exposes the generator position a call leaves behind; the second call starts
where the first ended. -/
theorem c5_counterexample :
    (generateRecurringEventsSt c5Event 0 0 0).1 ≠
      generateRecurringEvents c5Event 0 0 (generateRecurringEventsSt c5Event 0 0 0).2 := by
  decide

/-- C5 (amended): two calls with identical `(baseEvent, rangeStart,
rangeEnd)` arguments yield sequences of the same length and order that agree
on every field except the freshly generated occurrence id: erasing the ids
makes the outputs of any two calls — whatever the ObjectId generator
positions — equal. -/
theorem c5_idempotent_modulo_ids (b : CalendarEvent)
    (rangeStart rangeEnd idSeed idSeed2 : Nat) :
    (generateRecurringEvents b rangeStart rangeEnd idSeed).map eraseId =
      (generateRecurringEvents b rangeStart rangeEnd idSeed2).map eraseId := by
  cases hrec : b.recurrence with
  | none => simp [generateRecurringEvents, generateRecurringEventsChecked, hrec]
  | some r =>
    have h1 := generateRecurringEventsChecked_eq_some b rangeStart rangeEnd idSeed
    have h2 := generateRecurringEventsChecked_eq_some b rangeStart rangeEnd idSeed2
    unfold generateRecurringEventsChecked at h1 h2
    rw [hrec] at h1 h2
    exact generateRecurringEventsAux_eraseId b r rangeStart rangeEnd
      (r.endDate.getD rangeEnd) (effectiveMaxOccurrences r)
      (rangeEnd - b.startDate + 2) b.startDate 0 idSeed idSeed2 [] [] _ _ h1 h2 rfl

/-! ## Ordering of the output -/

theorem generateRecurringEventsAux_chain (b : CalendarEvent) (r : RecurrencePattern)
    (rangeStart rangeEnd maxDate maxOcc : Nat) :
    ∀ (fuel currentDate occurrenceCount nextId : Nat) (events l : List CalendarEvent),
      generateRecurringEventsAux b r rangeStart rangeEnd maxDate maxOcc
        fuel currentDate occurrenceCount nextId events = some l →
      (∀ o ∈ events, o.startDate < currentDate) →
      events.Chain' (fun o o2 => o2.startDate < o.startDate) →
      l.Chain' (fun o o2 => o.startDate < o2.startDate) := by
  intro fuel
  induction fuel with
  | zero => intro c cnt i acc l h; simp [generateRecurringEventsAux] at h
  | succ n ih =>
    intro c cnt i acc l h hacc hchain
    simp only [generateRecurringEventsAux] at h
    split at h
    · have hstep := lt_getNextOccurrenceDate c r
      split at h
      · refine ih _ _ _ _ _ h ?_ ?_
        · intro o ho
          rcases List.mem_cons.mp ho with rfl | ho
          · simp only [makeOccurrence]
            omega
          · have := hacc o ho
            omega
        · refine List.chain'_cons'.mpr ⟨?_, hchain⟩
          intro o2 ho2
          have := hacc o2 (List.mem_of_mem_head? ho2)
          simp only [makeOccurrence]
          omega
      · refine ih _ _ _ _ _ h ?_ hchain
        intro o ho
        have := hacc o ho
        omega
    · injection h with h2
      subst h2
      rw [List.chain'_reverse]
      exact hchain

/-- C7: the returned sequence is a finite list, strictly ascending by
`startDate`: the cursor strictly advances every loop iteration and
occurrences are emitted in cursor order. -/
theorem c7_sorted_ascending (b : CalendarEvent) (rangeStart rangeEnd idSeed : Nat) :
    (generateRecurringEvents b rangeStart rangeEnd idSeed).Chain'
      (fun o o2 => o.startDate < o2.startDate) := by
  cases hrec : b.recurrence with
  | none => simp [generateRecurringEvents, generateRecurringEventsChecked, hrec]
  | some r =>
    have hsome := generateRecurringEventsChecked_eq_some b rangeStart rangeEnd idSeed
    unfold generateRecurringEventsChecked at hsome
    rw [hrec] at hsome
    exact generateRecurringEventsAux_chain b r rangeStart rangeEnd
      (r.endDate.getD rangeEnd) (effectiveMaxOccurrences r)
      (rangeEnd - b.startDate + 2) b.startDate 0 idSeed [] _ hsome
      (by intro o ho; simp at ho) (by simp)

/-! ## Inverted query range -/

theorem generateRecurringEventsAux_inverted (b : CalendarEvent) (r : RecurrencePattern)
    (rangeStart rangeEnd maxDate maxOcc : Nat) (hse : rangeEnd < rangeStart) :
    ∀ (fuel currentDate occurrenceCount nextId : Nat) (events l : List CalendarEvent),
      generateRecurringEventsAux b r rangeStart rangeEnd maxDate maxOcc
        fuel currentDate occurrenceCount nextId events = some l →
      l = events.reverse := by
  intro fuel
  induction fuel with
  | zero => intro c cnt i acc l h; simp [generateRecurringEventsAux] at h
  | succ n ih =>
    intro c cnt i acc l h
    simp only [generateRecurringEventsAux] at h
    split at h
    · rename_i hg
      split at h
      · rename_i hcand
        omega
      · exact ih _ _ _ _ _ h
    · injection h with h2
      exact h2.symm

/-- C9: when `rangeStart > rangeEnd` the call terminates (the loop still
reaches a stop condition within its fuel, since the cursor only advances)
and returns the empty sequence: the emission guard `currentDate >=
rangeStart` can never hold together with the loop guard `currentDate <=
rangeEnd`. -/
theorem c9_empty_on_inverted_range (b : CalendarEvent)
    (rangeStart rangeEnd idSeed : Nat) (h : rangeEnd < rangeStart) :
    generateRecurringEventsChecked b rangeStart rangeEnd idSeed = some [] := by
  cases hrec : b.recurrence with
  | none => simp [generateRecurringEventsChecked, hrec]
  | some r =>
    have hsome := generateRecurringEventsChecked_eq_some b rangeStart rangeEnd idSeed
    unfold generateRecurringEventsChecked at hsome ⊢
    rw [hrec] at hsome ⊢
    have hempty := generateRecurringEventsAux_inverted b r rangeStart rangeEnd
      (r.endDate.getD rangeEnd) (effectiveMaxOccurrences r) h
      (rangeEnd - b.startDate + 2) b.startDate 0 idSeed [] _ hsome
    rw [hsome, hempty]
    rfl

theorem c9_empty_on_inverted_range_witness :
    (432000000 : Nat) < 864000000 ∧
    generateRecurringEventsChecked c5Event 864000000 432000000 0 = some [] :=
  ⟨by decide, c9_empty_on_inverted_range c5Event 864000000 432000000 0 (by decide)⟩

/-! ## The call never mutates the base event

The loop body assigns only to the locals `events`, `currentDate`,
`occurrenceCount` and to the freshly spread occurrence objects (built from a
copy produced by `baseEvent.toObject()`); no statement writes to `baseEvent`
or to `baseEvent.recurrence`.  To state this, the mutable heap object is
threaded through the loop explicitly (`ev` below): every read the source
performs on `baseEvent` is taken from `ev`, and the pair returned at the end
carries the object as the call leaves it. -/

def generateRecurringEventsFrameAux (r : RecurrencePattern)
    (rangeStart rangeEnd maxDate maxOccurrences : Nat) :
    Nat → Nat → Nat → Nat → List CalendarEvent → CalendarEvent →
      Option (List CalendarEvent × CalendarEvent)
  | 0, _, _, _, _, _ => none
  | fuel + 1, currentDate, occurrenceCount, nextId, events, ev =>
    if currentDate ≤ maxDate ∧ currentDate ≤ rangeEnd ∧ occurrenceCount < maxOccurrences then
      if rangeStart ≤ currentDate ∧ shouldCreateOccurrence currentDate r = true then
        generateRecurringEventsFrameAux r rangeStart rangeEnd maxDate maxOccurrences
          fuel (getNextOccurrenceDate currentDate r) (occurrenceCount + 1) (nextId + 1)
          (makeOccurrence ev currentDate nextId :: events) ev
      else
        generateRecurringEventsFrameAux r rangeStart rangeEnd maxDate maxOccurrences
          fuel (getNextOccurrenceDate currentDate r) occurrenceCount nextId events ev
    else
      some (events.reverse, ev)

/-- The call with the heap object threaded: returns the generated list
together with the base event object as it stands after the call. -/
def generateRecurringEventsWithFrame (baseEvent : CalendarEvent)
    (rangeStart rangeEnd idSeed : Nat) :
    Option (List CalendarEvent × CalendarEvent) :=
  match baseEvent.recurrence with
  | none => some ([], baseEvent)
  | some r =>
    generateRecurringEventsFrameAux r rangeStart rangeEnd
      (r.endDate.getD rangeEnd) (effectiveMaxOccurrences r)
      (rangeEnd - baseEvent.startDate + 2) baseEvent.startDate 0 idSeed [] baseEvent

theorem generateRecurringEventsFrameAux_eq (r : RecurrencePattern)
    (rangeStart rangeEnd maxDate maxOcc : Nat) :
    ∀ (fuel currentDate occurrenceCount nextId : Nat) (events : List CalendarEvent)
      (ev : CalendarEvent),
      generateRecurringEventsFrameAux r rangeStart rangeEnd maxDate maxOcc
        fuel currentDate occurrenceCount nextId events ev =
      (generateRecurringEventsAux ev r rangeStart rangeEnd maxDate maxOcc
        fuel currentDate occurrenceCount nextId events).map (fun l => (l, ev)) := by
  intro fuel
  induction fuel with
  | zero =>
    intro c cnt i acc ev
    simp [generateRecurringEventsFrameAux, generateRecurringEventsAux]
  | succ n ih =>
    intro c cnt i acc ev
    simp only [generateRecurringEventsFrameAux, generateRecurringEventsAux]
    split
    · split
      · exact ih _ _ _ _ _
      · exact ih _ _ _ _ _
    · simp

/-- C6: the expansion is pure with respect to its input: threading the base
event object through the call, the object returned after the call is exactly
the input object — no field of the base event (nor its recurrence rule) is
changed — and the produced list is the function of the inputs computed by
`generateRecurringEvents`. -/
theorem c6_no_mutation (b : CalendarEvent) (rangeStart rangeEnd idSeed : Nat) :
    generateRecurringEventsWithFrame b rangeStart rangeEnd idSeed =
      some (generateRecurringEvents b rangeStart rangeEnd idSeed, b) := by
  cases hrec : b.recurrence with
  | none =>
    simp [generateRecurringEventsWithFrame, generateRecurringEvents,
      generateRecurringEventsChecked, hrec]
  | some r =>
    have hsome := generateRecurringEventsChecked_eq_some b rangeStart rangeEnd idSeed
    simp only [generateRecurringEventsChecked, hrec] at hsome
    simp only [generateRecurringEventsWithFrame, hrec,
      generateRecurringEventsFrameAux_eq, hsome]
    rfl

/-! ## The documented January 2024 scenario -/

/-- The README's weekly example: every Monday and Wednesday (`daysOfWeek =
[1, 3]`: Monday = 1 and Wednesday = 3 under both weekday conventions in the
sources), interval 1, at most 20 occurrences. -/
def c8Rule : RecurrencePattern :=
  { frequency := .weekly, interval := 1, daysOfWeek := some [1, 3],
    endDate := none, maxOccurrences := some 20 }

/-- Base event seeded at `2024-01-15T09:00:00Z` (a Monday; Unix ms
1705309200000) with `c8Rule`. -/
def c8Event : CalendarEvent := mkBase 1705309200000 (some c8Rule)

/-- C8: querying the seed event over January 2024 — `rangeStart =
2024-01-01T00:00:00Z` (1704067200000), `rangeEnd = 2024-01-31T23:59:59Z`
(1706745599000, the whole-day reading of "2024-01-31" used by the README's
own range-endpoint example) — yields exactly six occurrences, at 09:00:00Z
on January 15, 17, 22, 24, 29 and 31 of 2024. -/
theorem c8_january_scenario :
    (generateRecurringEvents c8Event 1704067200000 1706745599000 0).map
        (fun o => o.startDate) =
      [1705309200000, 1705482000000, 1705914000000,
        1706086800000, 1706518800000, 1706691600000] := by
  decide
